import Mathlib

/-!
Shallow embedding of `src/ext/iodine/iodine.c` (the iodine Ruby extension's
core module file): the connection/listen argument processing
(`iodine_connect_args`), the thread/worker configuration setters, the
start guard, the `master?`/`worker?` predicates and the idle-cycle
callback registration.

Ruby `VALUE`s are modelled by the inductive `RVal`, restricted to the
shapes the source inspects (`RB_TYPE_P` checks against `T_STRING`,
`T_FIXNUM`, `T_HASH`, `T_SYMBOL`; everything else is opaque).  Machine
integers are `Int`/`Nat` with explicit wrap-around where the C casts
matter.  C code that can raise a Ruby exception is modelled in
`Except RubyErr`.
-/

/-- A Ruby `VALUE`, restricted to the shapes `iodine.c` inspects.
`obj` covers any other object (procs, handler objects, ...), `hash`
covers `T_HASH` values other than the settings hash itself, and `tlsObj`
is an `Iodine::TLS` instance. -/
inductive RVal where
  | vnil
  | vfalse
  | vtrue
  | fixnum (n : Int)
  | str (s : String)
  | sym (s : String)
  | hash (id : Nat)
  | tlsObj
  | obj (id : Nat)
deriving DecidableEq, Repr

/-- `RB_TYPE_P(v, T_FIXNUM)`. -/
def RVal.isFixnum : RVal → Bool
  | .fixnum _ => true
  | _ => false

/-- Ruby exceptions raised by the modelled code, plus `cUndefined` which
flags a C evaluation whose result the model leaves unspecified
(`RB_FIX2ULONG` applied to a `VALUE` that is not actually a Fixnum). -/
inductive RubyErr where
  | typeError
  | rangeError
  | argumentError (msg : String)
  | runtimeError (msg : String)
  | cUndefined
deriving DecidableEq, Repr

/-- The warnings `iodine_connect_args` can log via `FIO_LOG_WARNING`,
in source order of the logging sites. -/
inductive Warning where
  | appDeprecated
  | pingOver255
  | portTooHigh
  | timeoutOver255
  | urlPortTooLong
deriving DecidableEq, Repr

/-- `RB_FIX2ULONG`: a raw cast of the Fixnum's signed value to
`unsigned long` (no range check); negative values wrap modulo `2^64`. -/
def FIX2ULONG (n : Int) : Nat := (n % (2 : Int) ^ 64).toNat

/-- `FIX2UINT` = `(unsigned int)rb_fix2uint(...)` on LP64.  CRuby's
`check_uint` raises `RangeError` only below `INT_MIN` (-2^31) on the
minus side and above `UINT_MAX` (2^32-1) on the plus side; an accepted
value is truncated to `unsigned int`, so a negative Fixnum in
[-2^31, -1] wraps to `2^32 + n` (two's complement). -/
def rb_fix2uint (n : Int) : Except RubyErr Nat :=
  if n < -(2 : Int) ^ 31 ∨ (2 : Int) ^ 32 ≤ n then .error .rangeError
  else .ok ((n % (2 : Int) ^ 32).toNat)

/-- `NUM2SHORT`: range-checked conversion to `int16_t`, raising
`RangeError` outside `[-2^15, 2^15)`. -/
def NUM2SHORT (n : Int) : Except RubyErr Int :=
  if n < -(2 : Int) ^ 15 ∨ (2 : Int) ^ 15 ≤ n then .error .rangeError else .ok n

/-- Hexadecimal digit value of a character, when it has one. -/
def digitVal? (c : Char) : Option Nat :=
  if '0' ≤ c ∧ c ≤ '9' then some (c.toNat - '0'.toNat)
  else if 'a' ≤ c ∧ c ≤ 'f' then some (10 + c.toNat - 'a'.toNat)
  else if 'A' ≤ c ∧ c ≤ 'F' then some (10 + (c.toNat - 'A'.toNat))
  else none

/-- Accumulate digits of the given base, stopping at the first character
that is not a digit of that base. -/
def atolDigits (base : Nat) (cs : List Char) (acc : Nat) : Nat :=
  match cs with
  | [] => acc
  | c :: rest =>
    match digitVal? c with
    | some d => if d < base then atolDigits base rest (acc * base + d) else acc
    | none => acc

/-- Modelled from the spec: `fio_atol` lives in facil.io's `fio.c`, which
is not under `src/`.  Per its documentation it parses a leading signed
integer — base 10, base 16 after a `0x` prefix, or base 2 after a `0b`
prefix — stopping at the first character outside the base; no digits
yields 0.  Only zero-versus-nonzero of the result is consumed by the
code under verification. -/
def fio_atol (s : String) : Int :=
  let cs := s.toList
  let signed : Bool × List Char :=
    match cs with
    | '-' :: rest => (true, rest)
    | '+' :: rest => (false, rest)
    | _ => (false, cs)
  let mag : Nat :=
    match signed.2 with
    | '0' :: 'x' :: rest => atolDigits 16 rest 0
    | '0' :: 'b' :: rest => atolDigits 2 rest 0
    | l => atolDigits 10 l 0
  if signed.1 then -(mag : Int) else (mag : Int)

/-- The components of `fio_url_s` that `iodine_connect_args` reads; a
`none` component corresponds to a NULL `.data` pointer. -/
structure FioURL where
  scheme : Option String := none
  host : Option String := none
  port : Option String := none
  path : Option String := none
deriving DecidableEq, Repr

/-- The settings hash passed to `Iodine.listen` / `Iodine.connect`
(and the `iodine_default_args` hash): each supported key's value, with
`RVal.vnil` for an absent key (`rb_hash_aref` returns `Qnil`).
The `:url` value is carried as `Option FioURL`: the source feeds the
`:url` String to `fio_url_parse` (facil.io code not under `src/`), which
is abstracted here as the already-parsed components; `none` covers both
an absent `:url` and a non-String one. -/
structure Settings where
  address : RVal := .vnil
  app : RVal := .vnil
  body : RVal := .vnil
  cookies : RVal := .vnil
  handler : RVal := .vnil
  headers : RVal := .vnil
  log : RVal := .vnil
  max_body : RVal := .vnil
  max_clients : RVal := .vnil
  max_headers : RVal := .vnil
  max_msg : RVal := .vnil
  method : RVal := .vnil
  params : RVal := .vnil
  path : RVal := .vnil
  ping : RVal := .vnil
  port : RVal := .vnil
  public : RVal := .vnil
  service : RVal := .vnil
  timeout : RVal := .vnil
  tls : RVal := .vnil
  url : Option FioURL := none
deriving DecidableEq, Repr

/-- `IODINE_SERVICE_RAW` / `IODINE_SERVICE_HTTP` / `IODINE_SERVICE_WS`. -/
inductive ServiceKind where
  | raw
  | http
  | ws
deriving DecidableEq, Repr

/-- The TLS context carried in `iodine_connection_args_s.tls`:
either the (duplicated) context extracted from a supplied `Iodine::TLS`
object, or a fresh self-signed context made by `fio_tls_new` (the
certificate name passed to `fio_tls_new` does not affect anything this
development observes, so it is not carried). -/
inductive TLSCtx where
  | supplied
  | selfSigned
deriving DecidableEq, Repr

/-- `iodine_connection_args_s` as far as `iodine_connect_args` fills it:
the zero-initialisation `{.ping = 0}` is the record's defaults.
`fio_str_info_s` fields with a possibly-NULL `.data` are `Option String`
(the `.capa`/`fio_malloc` bookkeeping changes no observable string
value and is not carried). -/
structure ConnArgs where
  handler : RVal := .vnil
  address : Option String := none
  body : Option String := none
  cookies : RVal := .vnil
  headers : RVal := .vnil
  log : Bool := false
  max_body : Nat := 0
  max_clients : Nat := 0
  max_headers : Nat := 0
  max_msg : Nat := 0
  method : Option String := none
  params : RVal := .vnil
  path : Option String := none
  ping : Nat := 0
  port : Option String := none
  public : Option String := none
  service : ServiceKind := .raw
  timeout : Nat := 0
  tls : Option TLSCtx := none
deriving DecidableEq, Repr

/-- One step of the "Complete using default values" block: keep the
settings value unless it is `Qnil`. -/
def applyDefault (v d : RVal) : RVal := if v = .vnil then d else v

/-- Source lines 584-625: completes every collected value from
`iodine_default_args` — except `:service` (the completion is commented
out in the source) and `:url` (never completed). -/
def iodine_apply_defaults (s dflt : Settings) : Settings where
  address := applyDefault s.address dflt.address
  app := applyDefault s.app dflt.app
  body := applyDefault s.body dflt.body
  cookies := applyDefault s.cookies dflt.cookies
  handler := applyDefault s.handler dflt.handler
  headers := applyDefault s.headers dflt.headers
  log := applyDefault s.log dflt.log
  max_body := applyDefault s.max_body dflt.max_body
  max_clients := applyDefault s.max_clients dflt.max_clients
  max_headers := applyDefault s.max_headers dflt.max_headers
  max_msg := applyDefault s.max_msg dflt.max_msg
  method := applyDefault s.method dflt.method
  params := applyDefault s.params dflt.params
  path := applyDefault s.path dflt.path
  ping := applyDefault s.ping dflt.ping
  port := applyDefault s.port dflt.port
  public := applyDefault s.public dflt.public
  service := s.service
  timeout := applyDefault s.timeout dflt.timeout
  tls := applyDefault s.tls dflt.tls
  url := s.url

/-- Source lines 627-638: the `:app` deprecation fallback (re-read from
the settings hash itself, not from the defaults) and, for `Iodine.listen`
(`is_srv`), the block given to the call.  `blk` is
`rb_block_given_p() ? some (rb_block_proc()) : none`. -/
def iodine_resolve_handler (c s : Settings) (blk : Option RVal) (is_srv : Bool) :
    RVal × List Warning :=
  let hw : RVal × List Warning :=
    if c.handler = .vnil then
      match s.app with
      | .vnil => (.vnil, [])
      | a => (a, [.appDeprecated])
    else (c.handler, [])
  if is_srv ∧ hw.1 = .vnil ∧ blk.isSome then (blk.getD .vnil, hw.2) else hw

/-- Source lines 649-651: a String `:address`. -/
def iodine_set_address (r : ConnArgs) (v : RVal) : ConnArgs :=
  match v with
  | .str a => { r with address := some a }
  | _ => r

/-- Source lines 652-654: a String `:body`. -/
def iodine_set_body (r : ConnArgs) (v : RVal) : ConnArgs :=
  match v with
  | .str b => { r with body := some b }
  | _ => r

/-- Source lines 655-657: a Hash `:cookies`. -/
def iodine_set_cookies (r : ConnArgs) (v : RVal) : ConnArgs :=
  match v with
  | .hash i => { r with cookies := RVal.hash i }
  | _ => r

/-- Source lines 658-660: a Hash `:headers`. -/
def iodine_set_headers (r : ConnArgs) (v : RVal) : ConnArgs :=
  match v with
  | .hash i => { r with headers := RVal.hash i }
  | _ => r

/-- Source lines 661-663: any `:log` other than `nil`/`false` enables
logging. -/
def iodine_set_log (r : ConnArgs) (v : RVal) : ConnArgs :=
  if v ≠ RVal.vnil ∧ v ≠ RVal.vfalse then { r with log := true } else r

/-- Source lines 664-666: `FIX2ULONG(max_body) * 1024 * 1024` in
`size_t` arithmetic. -/
def iodine_set_max_body (r : ConnArgs) (v : RVal) : ConnArgs :=
  match v with
  | .fixnum n => { r with max_body := (FIX2ULONG n * 1024 * 1024) % 2 ^ 64 }
  | _ => r

/-- Source lines 667-669: a Fixnum `:max_clients`. -/
def iodine_set_max_clients (r : ConnArgs) (v : RVal) : ConnArgs :=
  match v with
  | .fixnum n => { r with max_clients := FIX2ULONG n }
  | _ => r

/-- Source lines 670-672: `FIX2ULONG(max_headers) * 1024`. -/
def iodine_set_max_headers (r : ConnArgs) (v : RVal) : ConnArgs :=
  match v with
  | .fixnum n => { r with max_headers := (FIX2ULONG n * 1024) % 2 ^ 64 }
  | _ => r

/-- Source lines 673-675: `FIX2ULONG(max_msg) * 1024`. -/
def iodine_set_max_msg (r : ConnArgs) (v : RVal) : ConnArgs :=
  match v with
  | .fixnum n => { r with max_msg := (FIX2ULONG n * 1024) % 2 ^ 64 }
  | _ => r

/-- Source lines 676-678: a String `:method`. -/
def iodine_set_method (r : ConnArgs) (v : RVal) : ConnArgs :=
  match v with
  | .str m => { r with method := some m }
  | _ => r

/-- Source lines 679-681: a Hash `:params`. -/
def iodine_set_params (r : ConnArgs) (v : RVal) : ConnArgs :=
  match v with
  | .hash i => { r with params := RVal.hash i }
  | _ => r

/-- Source lines 682-684: a String `:path`. -/
def iodine_set_path (r : ConnArgs) (v : RVal) : ConnArgs :=
  match v with
  | .str p => { r with path := some p }
  | _ => r

/-- Source lines 649-684: the straightforward type-tested field copies,
in source order. -/
def iodine_set_basic (r0 : ConnArgs) (c : Settings) : ConnArgs :=
  let r := iodine_set_address r0 c.address
  let r := iodine_set_body r c.body
  let r := iodine_set_cookies r c.cookies
  let r := iodine_set_headers r c.headers
  let r := iodine_set_log r c.log
  let r := iodine_set_max_body r c.max_body
  let r := iodine_set_max_clients r c.max_clients
  let r := iodine_set_max_headers r c.max_headers
  let r := iodine_set_max_msg r c.max_msg
  let r := iodine_set_method r c.method
  let r := iodine_set_params r c.params
  let r := iodine_set_path r c.path
  r

/-- Source lines 685-690: a Fixnum `:ping` of at most 255 is applied;
over 255 it is ignored with a warning (no exception — `FIX2ULONG` is a
raw cast, so a negative Fixnum also lands in the over-255 branch). -/
def iodine_set_ping (r : ConnArgs) (ping : RVal) : ConnArgs × List Warning :=
  match ping with
  | .fixnum n =>
    if FIX2ULONG n > 255 then (r, [.pingOver255])
    else ({ r with ping := FIX2ULONG n }, [])
  | _ => (r, [])

/-- Source lines 691-706: a String `:port` is kept only when `fio_atol`
parses a nonzero integer from it; a Fixnum `:port` goes through
`FIX2UINT` (which range-checks outside (-2^31, 2^32) and wraps accepted
negatives), is dropped when the unsigned value is zero, warned about
and dropped when it is 65536 or more (which covers every accepted
negative, since those wrap to at least 2^31), and otherwise rendered in
decimal by `fio_ltoa(..., FIX2INT(port), 10)`. -/
def iodine_set_port (r : ConnArgs) (port : RVal) : Except RubyErr (ConnArgs × List Warning) :=
  match port with
  | .str p =>
    if fio_atol p ≠ 0 then .ok ({ r with port := some p }, []) else .ok (r, [])
  | .fixnum n =>
    match rb_fix2uint n with
    | .error e => .error e
    | .ok u =>
      if u ≠ 0 then
        if u ≥ 65536 then .ok (r, [.portTooHigh])
        else .ok ({ r with port := some (toString n) }, [])
      else .ok (r, [])
  | _ => .ok (r, [])

/-- Source lines 708-710: the `:public` folder. -/
def iodine_set_public (r : ConnArgs) (v : RVal) : ConnArgs :=
  match v with
  | .str s => { r with public := some s }
  | _ => r

/-- Source lines 711-716: `service_str` is taken from a String
`:service`, or from a Symbol one via `rb_sym2str`. -/
def iodine_service_string (v : RVal) : Option String :=
  match v with
  | .str s => some s
  | .sym s => some s
  | _ => none

/-- Source lines 717-722.  NOTE: the source's guard is
`timeout != Qnil && RB_TYPE_P(ping, T_FIXNUM)` — it tests whether
`:ping` (not `:timeout`) is a Fixnum.  When the guard passes while
`:timeout` is not actually a Fixnum, `FIX2ULONG(timeout)` reads the raw
`VALUE` bits; the model flags that as `cUndefined`. -/
def iodine_set_timeout (r : ConnArgs) (timeout ping : RVal) :
    Except RubyErr (ConnArgs × List Warning) :=
  if timeout = RVal.vnil then .ok (r, [])
  else if ping.isFixnum then
    match timeout with
    | .fixnum n =>
      if FIX2ULONG n > 255 then .ok (r, [.timeoutOver255])
      else .ok ({ r with timeout := FIX2ULONG n }, [])
    | _ => .error .cUndefined
  else .ok (r, [])

/-- Source lines 723-727.  Modelled from the spec: `iodine_tls2c` lives
in `iodine_tls.c`, which is not under `src/`; it extracts the secure
transport collaborator's context from an `Iodine::TLS` object, and a
non-TLS object fails its typed-data check.  `fio_tls_dup` only adjusts
reference counts. -/
def iodine_set_tls (r : ConnArgs) (tls : RVal) : Except RubyErr ConnArgs :=
  match tls with
  | .vnil => .ok r
  | .tlsObj => .ok { r with tls := some .supplied }
  | _ => .error .typeError

/-- Source lines 729-782, after `fio_url_parse`: the URL components
override `service_str`, the port (cleared when the URL port is absent or
parses to 0, with a length warning over 5 bytes), the address (cleared
when the URL has no host), and the path — except that when neither an
address nor a port survived, the URL path becomes the address (the
`raw://:0/my/sock.sock` Unix-socket form).  The `fio_malloc`/`capa`
buffer juggling changes no string value and is not carried. -/
def iodine_url_overlay (r0 : ConnArgs) (ss : Option String) (u : FioURL) :
    ConnArgs × List Warning × Option String :=
  let ss := match u.scheme with
    | some sc => some sc
    | none => ss
  let pw : Option String × List Warning :=
    match u.port with
    | some up =>
      if fio_atol up = 0 then (none, [])
      else (some up, if up.length > 5 then [.urlPortTooLong] else [])
    | none => (none, [])
  let r := { r0 with port := pw.1 }
  let r := match u.host with
    | some h => { r with address := some h }
    | none => { r with address := none }
  let r := match u.path with
    | some p =>
      if r.address.isSome ∨ r.port.isSome then { r with path := some p }
      else { r with address := some p }
    | none => r
  (r, pw.2, ss)

/-- Source lines 783-825: `r.service` is reset to RAW, then the first
byte of `service_str` is switched on.  The `'u'`/`'t'` cases fall
through to `'r'` (marked `overflow` in the source).  The `'h'` case sets
HTTP and possibly a self-signed TLS context for the 5-byte scheme
(`https`), and then — there is no `break` in the source — control
continues into the `'w'` case, which sets WS and possibly a self-signed
TLS context for the 3-byte scheme (`wss`).  `is_srv` only selects the
certificate name handed to `fio_tls_new`, which this model does not
carry. -/
def iodine_service_switch (r0 : ConnArgs) (is_srv : Bool) (ss : Option String) : ConnArgs :=
  let r := { r0 with service := ServiceKind.raw }
  match ss with
  | none => r
  | some str =>
    match str.toList.head? with
    | none => r
    | some c0 =>
      if c0 = 'u' ∨ c0 = 't' ∨ c0 = 'r' then { r with service := ServiceKind.raw }
      else if c0 = 'h' then
        let r := { r with service := ServiceKind.http }
        let r :=
          if str.length = 5 ∧ r.tls = none then { r with tls := some TLSCtx.selfSigned } else r
        let r := { r with service := ServiceKind.ws }
        if str.length = 3 ∧ r.tls = none then { r with tls := some TLSCtx.selfSigned } else r
      else if c0 = 'w' then
        let r := { r with service := ServiceKind.ws }
        if str.length = 3 ∧ r.tls = none then { r with tls := some TLSCtx.selfSigned } else r
      else r

/-- `iodine_connect_args(s, is_srv)` (source lines 557-827), composed
from the stage functions above in source order.  The returned warning
list records the `FIO_LOG_WARNING` calls in the order the source would
emit them. -/
def iodine_connect_args (s dflt : Settings) (blk : Option RVal) (is_srv : Bool) :
    Except RubyErr (ConnArgs × List Warning) :=
  let c := iodine_apply_defaults s dflt
  let hw := iodine_resolve_handler c s blk is_srv
  if hw.1 = RVal.vnil then .error (.argumentError "a :handler is required.")
  else
    let r1 := iodine_set_basic { handler := hw.1 } c
    let pg := iodine_set_ping r1 c.ping
    match iodine_set_port pg.1 c.port with
    | .error e => .error e
    | .ok (r3, w3) =>
      let r4 := iodine_set_public r3 c.public
      let ss := iodine_service_string c.service
      match iodine_set_timeout r4 c.timeout c.ping with
      | .error e => .error e
      | .ok (r5, w5) =>
        match iodine_set_tls r5 c.tls with
        | .error e => .error e
        | .ok r6 =>
          let ov : ConnArgs × List Warning × Option String :=
            match s.url with
            | some u => iodine_url_overlay r6 ss u
            | none => (r6, [], ss)
          let r8 := iodine_service_switch ov.1 is_srv ov.2.2
          .ok (r8, hw.2 ++ pg.2 ++ w3 ++ w5 ++ ov.2.1)

/-!
### Reactor configuration and process predicates
-/

/-- The Ruby-visible engine state touched by the configuration API:
the `@threads` / `@workers` instance variables of the `Iodine` module
(`none` = ivar unset, `rb_ivar_get` returns `Qnil`) and facil.io's
`fio_is_running()` flag. -/
structure IodineState where
  threads : Option Int := none
  workers : Option Int := none
  running : Bool := false
deriving DecidableEq, Repr

/-- `iodine_threads_get` (source lines 122-127): the `@threads` ivar, or
`INT2NUM(0)` when unset. -/
def iodine_threads_get (st : IodineState) : Int := st.threads.getD 0

/-- `iodine_workers_get` (source lines 201-206). -/
def iodine_workers_get (st : IodineState) : Int := st.workers.getD 0

/-- `iodine_threads_set` (source lines 138-145): `Check_Type` demands a
Fixnum, `NUM2SSIZET(val) >= (1 << 12)` raises `RangeError`, anything
else is stored in `@threads` and returned. -/
def iodine_threads_set (st : IodineState) (val : RVal) :
    Except RubyErr (IodineState × RVal) :=
  match val with
  | .fixnum n =>
    if (2 : Int) ^ 12 ≤ n then .error .rangeError
    else .ok ({ st with threads := some n }, .fixnum n)
  | _ => .error .typeError

/-- `iodine_workers_set` (source lines 219-226): same shape with the
`(1 << 9)` bound and the `@workers` ivar. -/
def iodine_workers_set (st : IodineState) (val : RVal) :
    Except RubyErr (IodineState × RVal) :=
  match val with
  | .fixnum n =>
    if (2 : Int) ^ 9 ≤ n then .error .rangeError
    else .ok ({ st with workers := some n }, .fixnum n)
  | _ => .error .typeError

/-- Modelled from the spec: `fio_start` lives in facil.io's `fio.c`,
which is not under `src/`; it starts the reactor (blocking), after which
`fio_is_running()` holds.  The thread/worker counts passed down do not
feed back into the modelled state. -/
def fio_start (st : IodineState) (threads workers : Int) : IodineState :=
  { st with running := true }

/-- `iodine_start` (source lines 258-272): refuses to run twice, then
reads `@threads`/`@workers` and narrows them with `NUM2SHORT` before
handing them to `fio_start` outside the GVL. -/
def iodine_start (st : IodineState) : Except RubyErr IodineState :=
  if st.running then .error (.runtimeError "Iodine already running!")
  else
    match NUM2SHORT (iodine_threads_get st) with
    | .error e => .error e
    | .ok threads =>
      match NUM2SHORT (iodine_workers_get st) with
      | .error e => .error e
      | .ok workers => .ok (fio_start st threads workers)

/-- `iodine_master_is` (source lines 292-294): `fio_is_master()` as a
Ruby boolean. -/
def iodine_master_is (fio_is_master : Bool) : RVal :=
  if fio_is_master then .vtrue else .vfalse

/-- `iodine_worker_is` (source lines 300-302): the source also returns
`fio_is_master() ? Qtrue : Qfalse`. -/
def iodine_worker_is (fio_is_master : Bool) : RVal :=
  if fio_is_master then .vtrue else .vfalse

/-!
### Idle-cycle callbacks
-/

/-- The state touched by `Iodine.on_idle`: the GC-protection object
store (`IodineStore`), the `FIO_CALL_ON_IDLE` callback list (every entry
registered by `iodine_sched_on_idle` pairs the same C function
`iodine_perform_on_idle_callback` with the block as its argument, so an
entry is represented by the block alone), and the trace of Ruby `call`
invocations performed so far.  Blocks are identified by `Nat` ids. -/
structure IdleState where
  store : List Nat := []
  callbacks : List Nat := []
  calls : List Nat := []
deriving DecidableEq, Repr

/-- `iodine_sched_on_idle` (source lines 83-92): protect the block in
the store and append a `FIO_CALL_ON_IDLE` registration for it. -/
def iodine_sched_on_idle (st : IdleState) (blk : Nat) : IdleState :=
  { st with store := st.store ++ [blk], callbacks := st.callbacks ++ [blk] }

/-- `iodine_perform_on_idle_callback` (source lines 64-70): call the
block, drop it from the store, and remove this very registration from
the `FIO_CALL_ON_IDLE` list (`fio_state_callback_remove` drops one entry
matching the function/argument pair). -/
def iodine_perform_on_idle_callback (st : IdleState) (blk : Nat) : IdleState :=
  { st with
    calls := st.calls ++ [blk]
    store := st.store.erase blk
    callbacks := st.callbacks.erase blk }

/-- Modelled from the spec: the firing of `FIO_CALL_ON_IDLE` callbacks
lives in facil.io's `fio.c`, which is not under `src/`.  Per the spec,
idle-cycle callbacks fire once per idle tick; the tick invokes every
callback registered when the tick starts (the registration list is
snapshotted before firing). -/
def fio_on_idle_tick (st : IdleState) : IdleState :=
  st.callbacks.foldl (fun acc blk => iodine_perform_on_idle_callback acc blk) st

/-!
### Frame lemmas: which stages leave which `ConnArgs` fields alone
-/

theorem iodine_set_address_ping (r : ConnArgs) (v : RVal) :
    (iodine_set_address r v).ping = r.ping := by
  cases v <;> rfl

theorem iodine_set_body_ping (r : ConnArgs) (v : RVal) :
    (iodine_set_body r v).ping = r.ping := by
  cases v <;> rfl

theorem iodine_set_cookies_ping (r : ConnArgs) (v : RVal) :
    (iodine_set_cookies r v).ping = r.ping := by
  cases v <;> rfl

theorem iodine_set_headers_ping (r : ConnArgs) (v : RVal) :
    (iodine_set_headers r v).ping = r.ping := by
  cases v <;> rfl

theorem iodine_set_log_ping (r : ConnArgs) (v : RVal) :
    (iodine_set_log r v).ping = r.ping := by
  unfold iodine_set_log; split <;> rfl

theorem iodine_set_max_body_ping (r : ConnArgs) (v : RVal) :
    (iodine_set_max_body r v).ping = r.ping := by
  cases v <;> rfl

theorem iodine_set_max_clients_ping (r : ConnArgs) (v : RVal) :
    (iodine_set_max_clients r v).ping = r.ping := by
  cases v <;> rfl

theorem iodine_set_max_headers_ping (r : ConnArgs) (v : RVal) :
    (iodine_set_max_headers r v).ping = r.ping := by
  cases v <;> rfl

theorem iodine_set_max_msg_ping (r : ConnArgs) (v : RVal) :
    (iodine_set_max_msg r v).ping = r.ping := by
  cases v <;> rfl

theorem iodine_set_method_ping (r : ConnArgs) (v : RVal) :
    (iodine_set_method r v).ping = r.ping := by
  cases v <;> rfl

theorem iodine_set_params_ping (r : ConnArgs) (v : RVal) :
    (iodine_set_params r v).ping = r.ping := by
  cases v <;> rfl

theorem iodine_set_path_ping (r : ConnArgs) (v : RVal) :
    (iodine_set_path r v).ping = r.ping := by
  cases v <;> rfl

theorem iodine_set_basic_ping (r : ConnArgs) (c : Settings) :
    (iodine_set_basic r c).ping = r.ping := by
  unfold iodine_set_basic
  rw [iodine_set_path_ping, iodine_set_params_ping, iodine_set_method_ping,
    iodine_set_max_msg_ping, iodine_set_max_headers_ping, iodine_set_max_clients_ping,
    iodine_set_max_body_ping, iodine_set_log_ping, iodine_set_headers_ping,
    iodine_set_cookies_ping, iodine_set_body_ping, iodine_set_address_ping]

theorem iodine_set_port_frame (r : ConnArgs) (v : RVal) (r' : ConnArgs) (w : List Warning)
    (h : iodine_set_port r v = .ok (r', w)) : r'.ping = r.ping := by
  unfold iodine_set_port at h
  repeat' split at h
  all_goals first
    | (simp only [Except.ok.injEq, Prod.mk.injEq] at h
       obtain ⟨h1, h2⟩ := h
       subst h1
       rfl)
    | simp at h

theorem iodine_set_public_ping (r : ConnArgs) (v : RVal) :
    (iodine_set_public r v).ping = r.ping := by
  cases v <;> rfl

theorem iodine_set_timeout_frame (r : ConnArgs) (timeout ping : RVal) (r' : ConnArgs)
    (w : List Warning) (h : iodine_set_timeout r timeout ping = .ok (r', w)) :
    r'.ping = r.ping := by
  unfold iodine_set_timeout at h
  repeat' split at h
  all_goals first
    | (simp only [Except.ok.injEq, Prod.mk.injEq] at h
       obtain ⟨h1, h2⟩ := h
       subst h1
       rfl)
    | simp at h

theorem iodine_set_tls_frame (r : ConnArgs) (v : RVal) (r' : ConnArgs)
    (h : iodine_set_tls r v = .ok r') : r'.ping = r.ping := by
  unfold iodine_set_tls at h
  repeat' split at h
  all_goals first
    | (simp only [Except.ok.injEq] at h
       subst h
       rfl)
    | simp at h

/-- The URL overlay only rewrites the `address`, `port` and `path`
fields of the argument record. -/
theorem iodine_url_overlay_shape (r : ConnArgs) (ss : Option String) (u : FioURL) :
    ∃ a p pa, (iodine_url_overlay r ss u).1 = { r with address := a, port := p, path := pa } := by
  obtain ⟨sc, hh, pp, pa⟩ := u
  unfold iodine_url_overlay
  dsimp only
  cases pp <;> cases hh <;> cases pa <;> dsimp only <;> (try split_ifs) <;> exact ⟨_, _, _, rfl⟩

theorem iodine_url_overlay_ping (r : ConnArgs) (ss : Option String) (u : FioURL) :
    (iodine_url_overlay r ss u).1.ping = r.ping := by
  obtain ⟨a, p, pa, h⟩ := iodine_url_overlay_shape r ss u
  rw [h]

/-- The service-type switch only rewrites the `service` and `tls` fields
of the argument record. -/
theorem iodine_service_switch_shape (r : ConnArgs) (srv : Bool) (ss : Option String) :
    ∃ sv tl, iodine_service_switch r srv ss = { r with service := sv, tls := tl } := by
  unfold iodine_service_switch
  cases ss with
  | none => exact ⟨_, _, rfl⟩
  | some str =>
    dsimp only
    cases hc : str.toList.head? with
    | none => exact ⟨_, _, rfl⟩
    | some c0 =>
      dsimp only
      split_ifs <;> exact ⟨_, _, rfl⟩

theorem iodine_service_switch_frame (r : ConnArgs) (srv : Bool) (ss : Option String) :
    (iodine_service_switch r srv ss).ping = r.ping
    ∧ (iodine_service_switch r srv ss).address = r.address
    ∧ (iodine_service_switch r srv ss).port = r.port
    ∧ (iodine_service_switch r srv ss).path = r.path
    ∧ (iodine_service_switch r srv ss).timeout = r.timeout
    ∧ (iodine_service_switch r srv ss).handler = r.handler := by
  obtain ⟨sv, tl, h⟩ := iodine_service_switch_shape r srv ss
  rw [h]
  exact ⟨rfl, rfl, rfl, rfl, rfl, rfl⟩

/-!
### Claims
-/

/-- Claim C1 (evaluation of the code at the inputs where the claim
fails, plus the TLS-attachment behavior): the schemes "http" and
"https" do NOT select the HTTP service kind — the `case 'h'` branch of
the service switch has no `break` and falls through into the `case 'w'`
branch, so both select the WebSocket kind; "https"/"wss" attach a
self-signed TLS context when none was supplied and leave a supplied one
alone, "ws" and "raw"/"tcp"/"unix"/no-scheme behave as claimed. -/
theorem http_scheme_falls_through_to_ws :
    ((iodine_connect_args { handler := RVal.obj 0, service := RVal.str "http" } {} none true).map
        (fun x => (x.1.service, x.1.tls)) = .ok (ServiceKind.ws, none))
    ∧ ((iodine_connect_args { handler := RVal.obj 0, service := RVal.str "https" } {} none true).map
        (fun x => (x.1.service, x.1.tls)) = .ok (ServiceKind.ws, some TLSCtx.selfSigned))
    ∧ ((iodine_connect_args { handler := RVal.obj 0, service := RVal.str "https", tls := RVal.tlsObj } {} none true).map
        (fun x => (x.1.service, x.1.tls)) = .ok (ServiceKind.ws, some TLSCtx.supplied))
    ∧ ((iodine_connect_args { handler := RVal.obj 0, service := RVal.str "ws" } {} none true).map
        (fun x => (x.1.service, x.1.tls)) = .ok (ServiceKind.ws, none))
    ∧ ((iodine_connect_args { handler := RVal.obj 0, service := RVal.str "wss" } {} none true).map
        (fun x => (x.1.service, x.1.tls)) = .ok (ServiceKind.ws, some TLSCtx.selfSigned))
    ∧ ((iodine_connect_args { handler := RVal.obj 0, service := RVal.str "raw" } {} none true).map
        (fun x => (x.1.service, x.1.tls)) = .ok (ServiceKind.raw, none))
    ∧ ((iodine_connect_args { handler := RVal.obj 0, service := RVal.str "tcp" } {} none true).map
        (fun x => (x.1.service, x.1.tls)) = .ok (ServiceKind.raw, none))
    ∧ ((iodine_connect_args { handler := RVal.obj 0, service := RVal.str "unix" } {} none true).map
        (fun x => (x.1.service, x.1.tls)) = .ok (ServiceKind.raw, none))
    ∧ ((iodine_connect_args { handler := RVal.obj 0, url := some { scheme := some "http" } } {} none true).map
        (fun x => (x.1.service, x.1.tls)) = .ok (ServiceKind.ws, none))
    ∧ ((iodine_connect_args { handler := RVal.obj 0 } {} none true).map
        (fun x => (x.1.service, x.1.tls)) = .ok (ServiceKind.raw, none)) := by
  exact ⟨rfl, rfl, rfl, rfl, rfl, rfl, rfl, rfl, rfl, rfl⟩

/-- Claim C2 (evaluation of the code at the failing input): a settings
hash with `:timeout` a Fixnum 30 and no `:ping` yields timeout 0 — the
source's guard tests whether `:ping` (not `:timeout`) is a Fixnum — and
the same hash with a Fixnum `:ping` added yields timeout 30; an
over-255 `:timeout` is dropped with a warning when the guard passes. -/
theorem timeout_applied_only_with_fixnum_ping :
    ((iodine_connect_args { handler := RVal.obj 0, timeout := RVal.fixnum 30 } {} none true).map
        (fun x => (x.1.timeout, x.2)) = .ok (0, []))
    ∧ ((iodine_connect_args { handler := RVal.obj 0, timeout := RVal.fixnum 30, ping := RVal.fixnum 5 } {} none true).map
        (fun x => x.1.timeout) = .ok 30)
    ∧ ((iodine_connect_args { handler := RVal.obj 0, timeout := RVal.fixnum 30, ping := RVal.str "x" } {} none true).map
        (fun x => x.1.timeout) = .ok 0)
    ∧ ((iodine_connect_args { handler := RVal.obj 0, timeout := RVal.fixnum 300, ping := RVal.fixnum 5 } {} none true).map
        (fun x => (x.1.timeout, x.2)) = .ok (0, [Warning.timeoutOver255])) := by
  exact ⟨rfl, rfl, rfl, rfl⟩

/-- Claim C4: `Iodine.master?` and `Iodine.worker?` are extensionally
equal — both return the Ruby boolean of `fio_is_master()`. -/
theorem master_worker_predicates_equal (b : Bool) :
    iodine_worker_is b = iodine_master_is b
    ∧ (iodine_master_is b = RVal.vtrue ↔ b = true)
    ∧ (iodine_worker_is b = RVal.vtrue ↔ b = true) := by
  cases b <;> simp [iodine_master_is, iodine_worker_is]

/-- Claim C3: `Iodine.threads=` raises `RangeError` for every requested
value at or above `1 << 12` = 4096 and stores the value in `@threads`
otherwise (negative values included); `Iodine.workers=` does the same
with the `1 << 9` = 512 bound and `@workers`.  The check is the
setter's own; `iodine_start` performs no such check — it accepts any
stored values that fit `NUM2SHORT`. -/
theorem threads_workers_range_check_at_set (st : IodineState) (n : Int) :
    ((2 : Int) ^ 12 ≤ n → iodine_threads_set st (.fixnum n) = .error .rangeError)
    ∧ (n < (2 : Int) ^ 12 →
        iodine_threads_set st (.fixnum n) = .ok ({ st with threads := some n }, .fixnum n))
    ∧ ((2 : Int) ^ 9 ≤ n → iodine_workers_set st (.fixnum n) = .error .rangeError)
    ∧ (n < (2 : Int) ^ 9 →
        iodine_workers_set st (.fixnum n) = .ok ({ st with workers := some n }, .fixnum n))
    ∧ (∀ t w : Int, st.running = false → st.threads = some t → st.workers = some w →
        -(2 : Int) ^ 15 ≤ t → t < (2 : Int) ^ 15 → -(2 : Int) ^ 15 ≤ w → w < (2 : Int) ^ 15 →
        iodine_start st = .ok { st with running := true }) := by
  refine ⟨?_, ?_, ?_, ?_, ?_⟩
  · intro h
    norm_num at h
    simp [iodine_threads_set, h]
  · intro h
    norm_num at h
    simp [iodine_threads_set, not_le.mpr h]
  · intro h
    norm_num at h
    simp [iodine_workers_set, h]
  · intro h
    norm_num at h
    simp [iodine_workers_set, not_le.mpr h]
  · intro t w hrun ht hw ht1 ht2 hw1 hw2
    norm_num at ht1 ht2 hw1 hw2
    have hT : ¬(t < -32768 ∨ 32768 ≤ t) := by omega
    have hW : ¬(w < -32768 ∨ 32768 ≤ w) := by omega
    simp [iodine_start, hrun, iodine_threads_get, iodine_workers_get, ht, hw, NUM2SHORT,
      fio_start, hT, hW]

/-- Witness for C3 at concrete inputs: 4096 raises for threads, 4095 is
stored; 512 raises for workers, -2 (half the cores) is stored. -/
theorem threads_workers_range_check_at_set_witness :
    iodine_threads_set {} (.fixnum 4096) = .error .rangeError
    ∧ iodine_threads_set {} (.fixnum 4095) = .ok ({ threads := some 4095 }, .fixnum 4095)
    ∧ iodine_workers_set {} (.fixnum 512) = .error .rangeError
    ∧ iodine_workers_set {} (.fixnum (-2)) = .ok ({ workers := some (-2) }, .fixnum (-2))
    ∧ iodine_start { threads := some 4095, workers := some (-2) }
        = .ok { threads := some 4095, workers := some (-2), running := true } :=
  ⟨(threads_workers_range_check_at_set {} 4096).1 (by norm_num),
   (threads_workers_range_check_at_set {} 4095).2.1 (by norm_num),
   (threads_workers_range_check_at_set {} 512).2.2.1 (by norm_num),
   (threads_workers_range_check_at_set {} (-2)).2.2.2.1 (by norm_num),
   (threads_workers_range_check_at_set { threads := some 4095, workers := some (-2) } 0).2.2.2.2
     4095 (-2) rfl rfl rfl (by norm_num) (by norm_num) (by norm_num) (by norm_num)⟩

/-- Claim C8: calling `Iodine.start` while `fio_is_running()` raises
`RuntimeError` immediately — before the thread/worker configuration is
read or narrowed and before the reactor is invoked — so the state is
unchanged whatever `@threads`/`@workers` hold. -/
theorem start_raises_when_running (st : IodineState) (h : st.running = true) :
    iodine_start st = .error (.runtimeError "Iodine already running!") := by
  simp [iodine_start, h]

/-- Witness for C8: a running state whose stored thread/worker counts
would not even fit `NUM2SHORT` still gets the `RuntimeError`. -/
theorem start_raises_when_running_witness :
    iodine_start { threads := some 100000, workers := some 100000, running := true }
      = .error (.runtimeError "Iodine already running!") :=
  start_raises_when_running { threads := some 100000, workers := some 100000, running := true } rfl

/-- Claim C9: for any settings hash providing neither `:handler` nor a
deprecated `:app` (and no default handler), `Iodine.connect`
(`is_srv = 0`) raises `ArgumentError` whether or not a block was given;
`Iodine.listen` (`is_srv = 1`) raises exactly when no block was given,
and otherwise takes the block as the handler. -/
theorem handler_required (s dflt : Settings) (blk : Option RVal)
    (hh : s.handler = RVal.vnil) (hdh : dflt.handler = RVal.vnil) (ha : s.app = RVal.vnil) :
    (iodine_connect_args s dflt blk false = .error (.argumentError "a :handler is required."))
    ∧ (iodine_connect_args s dflt none true = .error (.argumentError "a :handler is required."))
    ∧ (∀ b : RVal,
        (iodine_resolve_handler (iodine_apply_defaults s dflt) s (some b) true).1 = b) := by
  have hres : ∀ bk : Option RVal,
      iodine_resolve_handler (iodine_apply_defaults s dflt) s bk true
        = (if bk.isSome then (bk.getD .vnil, []) else (.vnil, [])) := by
    intro bk
    cases bk <;> simp [iodine_resolve_handler, iodine_apply_defaults, applyDefault, hh, hdh, ha]
  refine ⟨?_, ?_, ?_⟩
  · simp [iodine_connect_args, iodine_resolve_handler, iodine_apply_defaults, applyDefault,
      hh, hdh, ha]
  · simp [iodine_connect_args, hres none]
  · intro b
    simp [hres (some b)]

/-- Witness for C9 at concrete inputs: empty settings and defaults. -/
theorem handler_required_witness :
    (iodine_connect_args {} {} (some (RVal.obj 5)) false
        = .error (.argumentError "a :handler is required."))
    ∧ (iodine_connect_args {} {} none true = .error (.argumentError "a :handler is required."))
    ∧ (iodine_resolve_handler (iodine_apply_defaults {} {}) {} (some (RVal.obj 5)) true).1
        = RVal.obj 5 :=
  ⟨(handler_required {} {} (some (RVal.obj 5)) rfl rfl rfl).1,
   (handler_required {} {} none rfl rfl rfl).2.1,
   (handler_required {} {} (some (RVal.obj 5)) rfl rfl rfl).2.2 (RVal.obj 5)⟩

/-- Counterexample to claim C10 as stated: the Fixnum port 2^32 =
4294967296 is ≥ 65536, yet it is not "ignored with a logged warning" —
`FIX2UINT` raises `RangeError` for values above `UINT_MAX`, so the call
raises instead of completing. -/
theorem port_fixnum_uint_range_counterexample :
    iodine_connect_args { handler := RVal.obj 0, port := RVal.fixnum 4294967296 } {} none true
      = .error .rangeError := rfl

/-- Claim C10 as amended: a Fixnum `:port` is rendered as its decimal
string exactly when 1..65535; 0 is silently ignored; 65536..2^32-1 is
ignored with a logged warning; a Fixnum of 2^32 or more raises
`RangeError` from `FIX2UINT` instead of being ignored; a String `:port`
is kept exactly when `fio_atol` parses a nonzero integer from it.  The
characterization also covers negative Fixnums: down to -2^31 they wrap
to `2^32 + n` ≥ 2^31 and are warned about and ignored, below -2^31
`FIX2UINT` raises.  The closing conjuncts evaluate
`iodine_connect_args` itself on one input of each kind. -/
theorem port_setting_characterization (r : ConnArgs) (n : Int) (p : String) :
    (iodine_set_port r (RVal.fixnum n) =
      if n < -(2 : Int) ^ 31 ∨ (2 : Int) ^ 32 ≤ n then .error .rangeError
      else if n = 0 then .ok (r, [])
      else if 1 ≤ n ∧ n ≤ 65535 then .ok ({ r with port := some (toString n) }, [])
      else .ok (r, [Warning.portTooHigh]))
    ∧ (iodine_set_port r (RVal.str p) =
      if fio_atol p = 0 then .ok (r, []) else .ok ({ r with port := some p }, []))
    ∧ (iodine_set_port r RVal.vnil = .ok (r, []))
    ∧ ((iodine_connect_args { handler := RVal.obj 0, port := RVal.fixnum 3000 } {} none true).map
        (fun x => x.1.port) = .ok (some "3000"))
    ∧ ((iodine_connect_args { handler := RVal.obj 0, port := RVal.fixnum 0 } {} none true).map
        (fun x => (x.1.port, x.2)) = .ok (none, []))
    ∧ ((iodine_connect_args { handler := RVal.obj 0, port := RVal.fixnum 70000 } {} none true).map
        (fun x => (x.1.port, x.2)) = .ok (none, [Warning.portTooHigh]))
    ∧ ((iodine_connect_args { handler := RVal.obj 0, port := RVal.str "8080" } {} none true).map
        (fun x => x.1.port) = .ok (some "8080"))
    ∧ ((iodine_connect_args { handler := RVal.obj 0, port := RVal.str "0" } {} none true).map
        (fun x => x.1.port) = .ok none)
    ∧ ((iodine_connect_args { handler := RVal.obj 0, port := RVal.fixnum (-1) } {} none true).map
        (fun x => (x.1.port, x.2)) = .ok (none, [Warning.portTooHigh]))
    ∧ (iodine_connect_args { handler := RVal.obj 0, port := RVal.fixnum (-2147483649) } {} none true
        = .error .rangeError) := by
  refine ⟨?_, ?_, rfl, rfl, rfl, rfl, rfl, rfl, rfl, rfl⟩
  · simp only [iodine_set_port, rb_fix2uint]
    by_cases h1 : n < -(2 : Int) ^ 31 ∨ (2 : Int) ^ 32 ≤ n
    · rw [if_pos h1]
      rw [if_pos h1]
    · rw [if_neg h1]
      rw [if_neg h1]
      push_neg at h1
      obtain ⟨h1a, h1b⟩ := h1
      norm_num at h1a h1b
      dsimp only
      by_cases h2 : n = 0
      · subst h2
        norm_num
      · have hnt : (n % (2 : Int) ^ 32).toNat ≠ 0 := by
          norm_num
          omega
        rw [if_pos hnt, if_neg h2]
        by_cases h3 : 1 ≤ n ∧ n ≤ 65535
        · have hlt : ¬((n % (2 : Int) ^ 32).toNat ≥ 65536) := by
            norm_num
            omega
          rw [if_neg hlt, if_pos h3]
        · have hge : (n % (2 : Int) ^ 32).toNat ≥ 65536 := by
            norm_num
            omega
          rw [if_pos hge, if_neg h3]
  · by_cases h : fio_atol p = 0 <;> simp [iodine_set_port, h]

/-- The port the URL overlay leaves behind: the URL's port when present
and parsing to a nonzero integer, absent otherwise. -/
def urlExpectedPort (u : FioURL) : Option String :=
  match u.port with
  | some up => if fio_atol up = 0 then none else some up
  | none => none

/-- Whether the URL yields a host or an effective (nonzero) port — the
condition under which its path stays a path instead of becoming the
Unix-socket address. -/
def urlHasEndpoint (u : FioURL) : Bool :=
  u.host.isSome || (urlExpectedPort u).isSome

/-- The address the URL overlay leaves behind. -/
def urlExpectedAddress (u : FioURL) : Option String :=
  match u.path with
  | some p => if urlHasEndpoint u then u.host else some p
  | none => u.host

/-- The path the URL overlay leaves behind, given the pre-URL path. -/
def urlExpectedPath (u : FioURL) (prior : Option String) : Option String :=
  match u.path with
  | some p => if urlHasEndpoint u then some p else prior
  | none => prior

theorem url_overlay_proj (r : ConnArgs) (ss : Option String) (u : FioURL) :
    ((iodine_url_overlay r ss u).1.port = urlExpectedPort u)
    ∧ ((iodine_url_overlay r ss u).1.address = urlExpectedAddress u)
    ∧ ((iodine_url_overlay r ss u).1.path = urlExpectedPath u r.path) := by
  obtain ⟨sc, hh, pp, pa⟩ := u
  unfold iodine_url_overlay urlExpectedPort urlExpectedAddress urlExpectedPath urlHasEndpoint
  dsimp only
  cases pp <;> cases hh <;> cases pa <;> dsimp only <;> (try split_ifs) <;>
    simp_all [urlExpectedPort, urlHasEndpoint]

/-- For settings carrying only a handler and a URL, the pre-URL stages
produce the bare handler record, so the run is the URL overlay followed
by the service switch. -/
theorem connect_args_url_decomp (u : FioURL) :
    iodine_connect_args { handler := RVal.obj 0, url := some u } {} none true =
      .ok (iodine_service_switch (iodine_url_overlay { handler := RVal.obj 0 } none u).1 true
            (iodine_url_overlay { handler := RVal.obj 0 } none u).2.2,
          (iodine_url_overlay { handler := RVal.obj 0 } none u).2.1) := rfl

/-- Counterexample to claim C5 as stated: the URL
`raw://:0/tmp/sock.sock` HAS a port component (`"0"`), so by the claim
its path should replace the `:path` setting; in the code the port
parses to 0, the surviving address and port are both empty, and the
URL's path becomes the ADDRESS while the `:path` setting `"/x"` stays. -/
theorem url_port_zero_unix_form_counterexample :
    ((iodine_connect_args { handler := RVal.obj 0, path := RVal.str "/x", url := some { scheme := some "raw", port := some "0", path := some "/tmp/sock.sock" } } {} none true).map
        (fun x => (x.1.address, x.1.port, x.1.path))
      = .ok (some "/tmp/sock.sock", none, some "/x"))
    ∧ ((iodine_connect_args { handler := RVal.obj 0, path := RVal.str "/x", url := some { scheme := some "raw", port := some "0", path := some "/tmp/sock.sock" } } {} none true).map
        (fun x => x.1.path) ≠ .ok (some "/tmp/sock.sock")) := by
  constructor
  · rfl
  · intro h
    have h2 : (Except.ok (some "/x") : Except RubyErr (Option String))
        = .ok (some "/tmp/sock.sock") := h
    exact absurd (Option.some.inj (Except.ok.inj h2)) (by decide)

/-- Claim C5 as amended: a supplied URL overrides address, port and
path with its components — the host replaces the address (cleared when
absent), the port replaces the port (cleared when absent or parsing to
0), and the path replaces the path — except that when the URL yields
neither a host nor a port that parses to a nonzero integer, the URL's
path is used as the address (the Unix-socket form) and the path setting
is left alone.  The final conjunct evaluates `iodine_connect_args`
itself on a handler-plus-URL settings hash. -/
theorem url_overrides_address_port_path (r : ConnArgs) (ss : Option String) (u : FioURL) :
    ((iodine_url_overlay r ss u).1.port = urlExpectedPort u)
    ∧ ((iodine_url_overlay r ss u).1.address = urlExpectedAddress u)
    ∧ ((iodine_url_overlay r ss u).1.path = urlExpectedPath u r.path)
    ∧ ((iodine_connect_args { handler := RVal.obj 0, url := some u } {} none true).map
        (fun x => (x.1.address, x.1.port, x.1.path))
      = .ok (urlExpectedAddress u, urlExpectedPort u, urlExpectedPath u none)) := by
  obtain ⟨h1, h2, h3⟩ := url_overlay_proj r ss u
  refine ⟨h1, h2, h3, ?_⟩
  rw [connect_args_url_decomp]
  obtain ⟨sv, tl, hsw⟩ := iodine_service_switch_shape
    (iodine_url_overlay { handler := RVal.obj 0 } none u).1 true
    (iodine_url_overlay { handler := RVal.obj 0 } none u).2.2
  obtain ⟨p1, p2, p3⟩ := url_overlay_proj { handler := RVal.obj 0 } none u
  simp [Except.map, hsw, p1, p2, p3]

theorem connect_args_ok_ping_shape (s dflt : Settings) (blk : Option RVal) (srv : Bool)
    (r : ConnArgs) (w : List Warning)
    (hok : iodine_connect_args s dflt blk srv = .ok (r, w)) :
    r.ping = (iodine_set_ping (iodine_set_basic
        { handler := (iodine_resolve_handler (iodine_apply_defaults s dflt) s blk srv).1 }
        (iodine_apply_defaults s dflt)) (iodine_apply_defaults s dflt).ping).1.ping
    ∧ (iodine_set_ping (iodine_set_basic
        { handler := (iodine_resolve_handler (iodine_apply_defaults s dflt) s blk srv).1 }
        (iodine_apply_defaults s dflt)) (iodine_apply_defaults s dflt).ping).2 ⊆ w := by
  simp only [iodine_connect_args] at hok
  repeat' split at hok
  all_goals try exact Except.noConfusion hok
  · rename_i hguard x3 r3 w3 hport x2 r5 w5 htime x1 r6 htls xu u hurl
    rw [Except.ok.injEq, Prod.mk.injEq] at hok
    obtain ⟨hr, hw⟩ := hok
    subst hr
    subst hw
    constructor
    · rw [(iodine_service_switch_frame _ _ _).1, iodine_url_overlay_ping,
        iodine_set_tls_frame _ _ _ htls, iodine_set_timeout_frame _ _ _ _ _ htime,
        iodine_set_public_ping, iodine_set_port_frame _ _ _ _ hport]
    · intro x hx
      simp only [List.mem_append]
      tauto
  · rename_i hguard x3 r3 w3 hport x2 r5 w5 htime x1 r6 htls xu hurl
    rw [Except.ok.injEq, Prod.mk.injEq] at hok
    obtain ⟨hr, hw⟩ := hok
    subst hr
    subst hw
    constructor
    · rw [(iodine_service_switch_frame _ _ _).1,
        iodine_set_tls_frame _ _ _ htls, iodine_set_timeout_frame _ _ _ _ _ htime,
        iodine_set_public_ping, iodine_set_port_frame _ _ _ _ hport]
    · intro x hx
      simp only [List.mem_append]
      tauto

/-- Claim C7: whenever the (default-completed) `:ping` is a Fixnum `P ≥
0` (Fixnums fit 62 bits), a successful `iodine_connect_args` run
carries `ping = P` when `P ≤ 255`, and leaves `ping = 0` while logging
the over-255 warning when `P > 255`; the handling itself never raises —
for the minimal hash the run completes for every such `P`. -/
theorem ping_fixnum_applied (s dflt : Settings) (blk : Option RVal) (srv : Bool)
    (P : Int) (r : ConnArgs) (w : List Warning)
    (hping : s.ping = RVal.fixnum P) (hP0 : 0 ≤ P) (hP62 : P < (2 : Int) ^ 62)
    (hok : iodine_connect_args s dflt blk srv = .ok (r, w)) :
    (P ≤ 255 → r.ping = P.toNat)
    ∧ (255 < P → r.ping = 0 ∧ Warning.pingOver255 ∈ w)
    ∧ (∃ r' w', iodine_connect_args { handler := RVal.obj 0, ping := RVal.fixnum P } {} none true
        = .ok (r', w')) := by
  obtain ⟨hping_eq, hsub⟩ := connect_args_ok_ping_shape s dflt blk srv r w hok
  have hc : (iodine_apply_defaults s dflt).ping = RVal.fixnum P := by
    simp [iodine_apply_defaults, applyDefault, hping]
  rw [hc] at hping_eq hsub
  have hbase : (iodine_set_basic
      { handler := (iodine_resolve_handler (iodine_apply_defaults s dflt) s blk srv).1 }
      (iodine_apply_defaults s dflt)).ping = 0 := by
    rw [iodine_set_basic_ping]
  have hP64 : P < (2 : Int) ^ 64 := lt_trans hP62 (by norm_num)
  have hFIX : FIX2ULONG P = P.toNat := by
    unfold FIX2ULONG
    rw [Int.emod_eq_of_lt hP0 hP64]
  refine ⟨?_, ?_, ⟨_, _, rfl⟩⟩
  · intro hle
    rw [hping_eq]
    simp [iodine_set_ping, hFIX, not_lt.mpr hle]
  · intro hgt
    constructor
    · rw [hping_eq]
      simp [iodine_set_ping, hFIX, hgt, hbase]
    · apply hsub
      simp [iodine_set_ping, hFIX, hgt]

/-- Witness for C7: `ping: 7` is carried; `ping: 300` is dropped to 0
with the warning logged. -/
theorem ping_fixnum_applied_witness :
    ((7 : Int) ≤ 255 → ({ handler := RVal.obj 0, ping := 7 } : ConnArgs).ping = (7 : Int).toNat)
    ∧ (255 < (300 : Int) → ({ handler := RVal.obj 0 } : ConnArgs).ping = 0
        ∧ Warning.pingOver255 ∈ [Warning.pingOver255]) :=
  ⟨(ping_fixnum_applied { handler := RVal.obj 0, ping := RVal.fixnum 7 } {} none true 7
      { handler := RVal.obj 0, ping := 7 } [] rfl (by norm_num) (by norm_num) rfl).1,
   (ping_fixnum_applied { handler := RVal.obj 0, ping := RVal.fixnum 300 } {} none true 300
      { handler := RVal.obj 0 } [Warning.pingOver255] rfl (by norm_num) (by norm_num) rfl).2.1⟩

theorem perform_preserves_other (st : IdleState) (c b : Nat) (hne : c ≠ b) :
    ((iodine_perform_on_idle_callback st c).calls.count b = st.calls.count b)
    ∧ ((iodine_perform_on_idle_callback st c).callbacks.count b = st.callbacks.count b)
    ∧ ((iodine_perform_on_idle_callback st c).store.count b = st.store.count b) := by
  unfold iodine_perform_on_idle_callback
  refine ⟨?_, ?_, ?_⟩ <;>
    simp [List.count_append, List.count_erase_of_ne (Ne.symm hne), List.count_cons, hne]

theorem idle_fold_not_mem (l : List Nat) (st : IdleState) (b : Nat) (hb : b ∉ l) :
    ((l.foldl (fun acc blk => iodine_perform_on_idle_callback acc blk) st).calls.count b
        = st.calls.count b)
    ∧ ((l.foldl (fun acc blk => iodine_perform_on_idle_callback acc blk) st).callbacks.count b
        = st.callbacks.count b)
    ∧ ((l.foldl (fun acc blk => iodine_perform_on_idle_callback acc blk) st).store.count b
        = st.store.count b) := by
  induction l generalizing st with
  | nil => exact ⟨rfl, rfl, rfl⟩
  | cons c rest ih =>
    have hbc : c ≠ b := by
      intro h
      exact hb (by simp [h])
    have hbr : b ∉ rest := fun h => hb (List.mem_cons_of_mem _ h)
    obtain ⟨h1, h2, h3⟩ := ih (iodine_perform_on_idle_callback st c) hbr
    obtain ⟨p1, p2, p3⟩ := perform_preserves_other st c b hbc
    refine ⟨?_, ?_, ?_⟩ <;> simp [List.foldl_cons, h1, h2, h3, p1, p2, p3]

/-- Claim C6: an `Iodine.on_idle` registration is single-shot.  After
one idle tick the registered block has been called exactly once more,
its registration is gone from the `FIO_CALL_ON_IDLE` list and the block
is gone from the object store; a second tick does not call it again —
in general a tick never calls a block with no registration and
registers nothing new. -/
theorem on_idle_single_shot (st0 : IdleState) (b : Nat)
    (hcb : b ∉ st0.callbacks) (hst : b ∉ st0.store) :
    ((fio_on_idle_tick (iodine_sched_on_idle st0 b)).calls.count b
        = (iodine_sched_on_idle st0 b).calls.count b + 1)
    ∧ (b ∉ (fio_on_idle_tick (iodine_sched_on_idle st0 b)).callbacks)
    ∧ (b ∉ (fio_on_idle_tick (iodine_sched_on_idle st0 b)).store)
    ∧ ((fio_on_idle_tick (fio_on_idle_tick (iodine_sched_on_idle st0 b))).calls.count b
        = (fio_on_idle_tick (iodine_sched_on_idle st0 b)).calls.count b)
    ∧ (∀ st : IdleState, b ∉ st.callbacks →
        (fio_on_idle_tick st).calls.count b = st.calls.count b
        ∧ b ∉ (fio_on_idle_tick st).callbacks) := by
  have hgen : ∀ st : IdleState, b ∉ st.callbacks →
      (fio_on_idle_tick st).calls.count b = st.calls.count b
      ∧ b ∉ (fio_on_idle_tick st).callbacks := by
    intro st hb
    obtain ⟨h1, h2, h3⟩ := idle_fold_not_mem st.callbacks st b hb
    have hz : st.callbacks.count b = 0 := List.count_eq_zero.mpr hb
    refine ⟨h1, ?_⟩
    rw [← List.count_eq_zero]
    simp only [fio_on_idle_tick] at h2 ⊢
    omega
  have hcb0 : st0.callbacks.count b = 0 := List.count_eq_zero.mpr hcb
  have hst0 : st0.store.count b = 0 := List.count_eq_zero.mpr hst
  have hsched : (iodine_sched_on_idle st0 b).callbacks = st0.callbacks ++ [b] := rfl
  have htick : fio_on_idle_tick (iodine_sched_on_idle st0 b)
      = iodine_perform_on_idle_callback
          (st0.callbacks.foldl (fun acc blk => iodine_perform_on_idle_callback acc blk)
            (iodine_sched_on_idle st0 b)) b := by
    simp only [fio_on_idle_tick]
    rw [hsched, List.foldl_append]
    rfl
  obtain ⟨f1, f2, f3⟩ := idle_fold_not_mem st0.callbacks (iodine_sched_on_idle st0 b) b hcb
  have hcbs : (iodine_sched_on_idle st0 b).callbacks.count b = 1 := by
    rw [hsched]
    simp [List.count_append, hcb0]
  have hsts : (iodine_sched_on_idle st0 b).store.count b = 1 := by
    show (st0.store ++ [b]).count b = 1
    simp [List.count_append, hst0]
  have c1 : (fio_on_idle_tick (iodine_sched_on_idle st0 b)).calls.count b
      = (iodine_sched_on_idle st0 b).calls.count b + 1 := by
    rw [htick]

    show ((st0.callbacks.foldl (fun acc blk => iodine_perform_on_idle_callback acc blk)
        (iodine_sched_on_idle st0 b)).calls ++ [b]).count b
      = (iodine_sched_on_idle st0 b).calls.count b + 1
    simp [List.count_append, f1]
  have c2 : b ∉ (fio_on_idle_tick (iodine_sched_on_idle st0 b)).callbacks := by
    rw [← List.count_eq_zero, htick]
    show ((st0.callbacks.foldl (fun acc blk => iodine_perform_on_idle_callback acc blk)
        (iodine_sched_on_idle st0 b)).callbacks.erase b).count b = 0
    rw [List.count_erase_self, f2, hcbs]
  have c3 : b ∉ (fio_on_idle_tick (iodine_sched_on_idle st0 b)).store := by
    rw [← List.count_eq_zero, htick]
    show ((st0.callbacks.foldl (fun acc blk => iodine_perform_on_idle_callback acc blk)
        (iodine_sched_on_idle st0 b)).store.erase b).count b = 0
    rw [List.count_erase_self, f3, hsts]
  exact ⟨c1, c2, c3, (hgen _ c2).1, hgen⟩

/-- Witness for C6: the empty state, block id 0. -/
theorem on_idle_single_shot_witness :
    ((fio_on_idle_tick (iodine_sched_on_idle {} 0)).calls.count 0
        = (iodine_sched_on_idle {} 0).calls.count 0 + 1)
    ∧ (0 ∉ (fio_on_idle_tick (iodine_sched_on_idle {} 0)).callbacks)
    ∧ (0 ∉ (fio_on_idle_tick (iodine_sched_on_idle {} 0)).store)
    ∧ ((fio_on_idle_tick (fio_on_idle_tick (iodine_sched_on_idle {} 0))).calls.count 0
        = (fio_on_idle_tick (iodine_sched_on_idle {} 0)).calls.count 0) := by
  obtain ⟨c1, c2, c3, c4, _⟩ := on_idle_single_shot {} 0 (by simp) (by simp)
  exact ⟨c1, c2, c3, c4⟩
